import Mathlib

/-!
Shallow embedding of the Schema Inference & Dynamic Filter Engine of the
procurement-analytics dashboard: `detect_column_types` (src/utils/data_manager.py)
and `generate_dynamic_filters` / `apply_filters` (src/utils/dynamic_filters.py).

Pandas dataframes are modelled as a list of column names plus a list of rows of
scalar `Value`s, with the pandas `attrs` dictionary carried explicitly.  Python
mutation of `df.attrs` is translated into explicit state passing (the function
returns the updated frame).  A raised Python exception that escapes a function
is modelled by `Option`/`none`; exceptions caught inside the source (the
`try/except` blocks) are modelled locally in the corresponding branch.
-/

set_option maxRecDepth 4096

namespace ArcadisFilters

/-- One scalar cell of a dataframe: a number (pandas numeric dtype, modelled as
`Int`), a string, a datetime value (pandas `Timestamp`, modelled as a day
count), or the missing marker (`NaN`/`NaT`). -/
inductive Value where
  | na : Value
  | num : Int → Value
  | str : String → Value
  | dateV : Nat → Value
deriving DecidableEq, Repr

def Value.isNa : Value → Bool
  | .na => true
  | _ => false

def Value.isNum : Value → Bool
  | .num _ => true
  | _ => false

def Value.isStr : Value → Bool
  | .str _ => true
  | _ => false

def Value.isDate : Value → Bool
  | .dateV _ => true
  | _ => false

/-- Byte-wise prefix test on character lists. -/
def pfx : List Char → List Char → Bool
  | [], _ => true
  | _ :: _, [] => false
  | a :: as, b :: bs => a == b && pfx as bs

/-- Substring containment, modelling Python's `tok in s`. -/
def containsSub (t : List Char) : List Char → Bool
  | [] => pfx t []
  | l@(_ :: rest) => pfx t l || containsSub t rest

/-- Python's `s.endswith(t)`, via reversed prefix testing. -/
def strEndsWith (s t : String) : Bool := pfx t.data.reverse s.data.reverse

/-- Python's slice `s[:-n]`. -/
def strDropRight (s : String) (n : Nat) : String :=
  String.mk (s.data.take (s.data.length - n))

/-- Python's `s.lower()`. -/
def lowerStr (s : String) : String := String.mk (s.data.map Char.toLower)

/-- Models `any(tok in name.lower() for tok in toks)`. -/
def hasTok (name : String) (toks : List String) : Bool :=
  toks.any (fun t => containsSub t.data (lowerStr name).data)

/-- Lexicographic order on strings as character lists. -/
def chLe : List Char → List Char → Bool
  | [], _ => true
  | _ :: _, [] => false
  | a :: as, b :: bs => if a == b then chLe as bs else decide (a.toNat ≤ b.toNat)

/-- Pandas element-wise `x >= y`: true only for comparable same-kind values;
`NaN` compares false. -/
def vge : Value → Value → Bool
  | .num a, .num b => decide (b ≤ a)
  | .str a, .str b => chLe b.data a.data
  | .dateV a, .dateV b => decide (b ≤ a)
  | _, _ => false

/-- Pandas element-wise `x <= y`. -/
def vleP (a b : Value) : Bool := vge b a

/-- Pandas element-wise `x == y`: cross-kind comparison and `NaN` yield false. -/
def veq : Value → Value → Bool
  | .num a, .num b => a == b
  | .str a, .str b => a == b
  | .dateV a, .dateV b => a == b
  | _, _ => false

/-- Total order used to model Python's `sorted` on a homogeneous value list. -/
def vleT : Value → Value → Bool
  | .na, _ => true
  | _, .na => false
  | .dateV a, .dateV b => decide (a ≤ b)
  | .dateV _, _ => true
  | _, .dateV _ => false
  | .num a, .num b => decide (a ≤ b)
  | .num _, _ => true
  | _, .num _ => false
  | .str a, .str b => chLe a.data b.data

def insertV (v : Value) : List Value → List Value
  | [] => [v]
  | w :: ws => if vleT v w then v :: w :: ws else w :: insertV v ws

/-- Python `sorted(...)` (insertion sort under `vleT`). -/
def sortVals (vs : List Value) : List Value := vs.foldr insertV []

/-- Pandas `.dropna()`. -/
def dropNa (vs : List Value) : List Value := vs.filter (fun v => !v.isNa)

/-- Pandas `.unique()`: distinct values, first occurrence kept. -/
def dedupF (vs : List Value) : List Value :=
  vs.foldl (fun acc v => if acc.contains v then acc else acc ++ [v]) []

/-- The pandas `attrs` metadata dictionary, as written by `detect_column_types`
and read by `generate_dynamic_filters`: the `column_types` entry is a mapping
from kind name to column-name list, `unique_values` maps a categorical column
to its sorted distinct values. -/
structure Attrs where
  column_types : Option (List (String × List String))
  unique_values : List (String × List Value)
deriving DecidableEq, Repr

/-- A dataframe: ordered column names, rows of cells, and `attrs` metadata. -/
structure DataFrame where
  cols : List String
  rows : List (List Value)
  attrs : Attrs
deriving DecidableEq, Repr

/-- Index of a named column; `none` models a pandas `KeyError` on lookup. -/
def lookupColIdx (cols : List String) (c : String) : Option Nat :=
  cols.findIdx? (· == c)

/-- The value series of column `c` (`df[c]`). -/
def colValsAt (cols : List String) (rows : List (List Value)) (c : String) :
    Option (List Value) :=
  (lookupColIdx cols c).map (fun j => rows.map (fun r => r.getD j Value.na))

/-- Pandas `df.empty`: some axis has length 0. -/
def dfEmpty (df : DataFrame) : Bool := df.rows.isEmpty || df.cols.isEmpty

/-- Models `filtered_data[filtered_data[c] OP value]`: keep the rows whose cell in
column `c` satisfies `p`; `none` models the `KeyError` when `c` is absent. -/
def filterRows (df : DataFrame) (c : String) (p : Value → Bool) :
    Option DataFrame :=
  (lookupColIdx df.cols c).map
    (fun j => { df with rows := df.rows.filter (fun r => p (r.getD j Value.na)) })

/-- The column a selection targets: the key with its `_min`/`_max`/`_start`/
`_end` suffix stripped (dynamic_filters.py lines 181-192), else the key itself. -/
def stripKeyCol (k : String) : String :=
  if strEndsWith k "_min" then strDropRight k 4
  else if strEndsWith k "_max" then strDropRight k 4
  else if strEndsWith k "_start" then strDropRight k 6
  else if strEndsWith k "_end" then strDropRight k 4
  else k

/-- The comparison a selection performs: `>=` for `_min`/`_start`, `<=` for
`_max`/`_end`, equality otherwise (same branch chain as `stripKeyCol`). -/
def predOf (k : String) (v : Value) : Value → Bool :=
  if strEndsWith k "_min" then fun c => vge c v
  else if strEndsWith k "_max" then fun c => vleP c v
  else if strEndsWith k "_start" then fun c => vge c v
  else if strEndsWith k "_end" then fun c => vleP c v
  else fun c => veq c v

/-- One iteration of the loop in `apply_filters` (lines 180-195). -/
def applyOne (df : DataFrame) (k : String) (v : Value) : Option DataFrame :=
  filterRows df (stripKeyCol k) (predOf k v)

/-- The selection loop of `apply_filters`; a `KeyError` aborts the whole call. -/
def applyList (df : DataFrame) : List (String × Value) → Option DataFrame
  | [] => some df
  | (k, v) :: rest =>
    match applyOne df k v with
    | some d => applyList d rest
    | none => none

/-- Embedding of `apply_filters(data, filters)` (dynamic_filters.py lines 164-197); the
selections dictionary is modelled as an association list in insertion order. -/
def apply_filters (df : DataFrame) (filters : List (String × Value)) :
    Option DataFrame :=
  if filters.isEmpty || dfEmpty df then some df else applyList df filters

/-! ## Column classifier (`detect_column_types`, data_manager.py lines 38-113) -/

/-- The semantic type buckets of `detect_column_types`. -/
inductive Classification where
  | ident
  | numeric
  | monetary
  | date
  | categorical
  | text
deriving DecidableEq, Repr

def idTokens : List String := ["id", "code", "number", "no.", "key"]

def moneyTokens : List String :=
  ["amount", "price", "cost", "value", "spend", "budget", "revenue"]

def dateTokens : List String :=
  ["date", "day", "month", "year", "time", "period", "quarter"]

/-- Models `pd.api.types.is_numeric_dtype`: the column stores numbers (with possible
`NaN` holes). -/
def numericDtype (vs : List Value) : Bool := vs.all (fun v => v.isNum || v.isNa)

/-- Models `pd.to_datetime` succeeding on one scalar: `NaT`/`NaN` and datetime
values pass, a string passes when it is an ISO `YYYY-MM-DD` date, a bare number
in an object column does not. -/
def parsesDate : Value → Bool
  | .na => true
  | .dateV _ => true
  | .str s =>
    match s.data with
    | [y1, y2, y3, y4, s1, m1, m2, s2, d1, d2] =>
      y1.isDigit && y2.isDigit && y3.isDigit && y4.isDigit &&
      s1 == '-' && m1.isDigit && m2.isDigit && s2 == '-' &&
      d1.isDigit && d2.isDigit &&
      (let m := (m1.toNat - 48) * 10 + (m2.toNat - 48)
       let d := (d1.toNat - 48) * 10 + (d2.toNat - 48)
       decide (1 ≤ m) && decide (m ≤ 12) && decide (1 ≤ d) && decide (d ≤ 31))
    | _ => false
  | .num _ => false

/-- Models `pd.to_datetime(df[col])` succeeding on the whole series. -/
def allParseDates (vs : List Value) : Bool := vs.all parsesDate

/-- Count `n_unique` of distinct non-missing values (`Series.nunique`). -/
def nuniq (vs : List Value) : Nat := (dedupF (dropNa vs)).length

/-- The categorical rule of data_manager.py line 94:
`n_unique <= 50 or (n_unique / n_total <= 0.2 and n_unique <= 100)`,
with the ratio test written exactly as `5 * n_unique <= n_total`. -/
def catThresh (vs : List Value) : Bool :=
  let u := nuniq vs
  let t := (dropNa vs).length
  decide (u ≤ 50) || (decide (5 * u ≤ t) && decide (u ≤ 100))

/-- The per-column body of the loop in `detect_column_types` (lines 60-100):
`none` means the column is skipped (all values missing); the `try/except`
around the date conversion is reflected in requiring `allParseDates`. -/
def classifyCol (name : String) (vs : List Value) : Option Classification :=
  if vs.all Value.isNa then none
  else if hasTok name idTokens then some .ident
  else if numericDtype vs then
    if hasTok name moneyTokens then some .monetary else some .numeric
  else if hasTok name dateTokens && allParseDates vs then some .date
  else if catThresh vs then some .categorical
  else some .text

/-- The six kind lists and the categorical distinct-value cache accumulated by
`detect_column_types`. -/
structure DetectAcc where
  numeric : List String := []
  date : List String := []
  monetary : List String := []
  categorical : List String := []
  idc : List String := []
  text : List String := []
  uv : List (String × List Value) := []
deriving DecidableEq, Repr

/-- One iteration of `for col in df.columns` in `detect_column_types`. -/
def detectStep (df : DataFrame) (acc : DetectAcc) (name : String) : DetectAcc :=
  let vs := (colValsAt df.cols df.rows name).getD []
  match classifyCol name vs with
  | none => acc
  | some .ident => { acc with idc := acc.idc ++ [name] }
  | some .numeric => { acc with numeric := acc.numeric ++ [name] }
  | some .monetary => { acc with monetary := acc.monetary ++ [name] }
  | some .date => { acc with date := acc.date ++ [name] }
  | some .categorical =>
    { acc with categorical := acc.categorical ++ [name],
               uv := acc.uv ++ [(name, sortVals (dedupF (dropNa vs)))] }
  | some .text => { acc with text := acc.text ++ [name] }

/-- Embedding of `detect_column_types(df)` (data_manager.py lines 38-113): classifies every
column and records the result in `df.attrs` (the in-place attrs mutation is
translated to returning the updated frame). -/
def detect_column_types (df : DataFrame) : DataFrame :=
  let a := df.cols.foldl (detectStep df) {}
  { df with
    attrs :=
      { column_types := some
          [("numeric", a.numeric), ("date", a.date), ("monetary", a.monetary),
           ("categorical", a.categorical), ("id", a.idc), ("text", a.text)],
        unique_values := a.uv } }

/-! ## Filter synthesizer (`generate_dynamic_filters`, dynamic_filters.py 5-162)

Streamlit widget calls are modelled by a `UI` oracle supplying the user's
selections; the ordered list of widgets created (the synthesized filter specs)
is returned alongside the selections dictionary. -/

/-- One rendered filter control: an enum dropdown (`st.selectbox` with its
options list), a date-range picker, or a numeric range slider with its
suggested step. -/
inductive FilterSpec where
  | enumChoice (col : String) (options : List Value)
  | dateRange (col : String) (lo hi : Nat)
  | numRange (col : String) (lo hi : Int) (step : ℚ)
deriving DecidableEq, Repr

def FilterSpec.colName : FilterSpec → String
  | .enumChoice c _ => c
  | .dateRange c _ _ => c
  | .numRange c _ _ _ => c

def FilterSpec.isEnum : FilterSpec → Bool
  | .enumChoice _ _ => true
  | _ => false

def FilterSpec.isDateRange : FilterSpec → Bool
  | .dateRange _ _ _ => true
  | _ => false

def FilterSpec.isNumRange : FilterSpec → Bool
  | .numRange _ _ _ _ => true
  | _ => false

/-- The user's interaction with the created widgets: each function receives
the widget label, its payload, and its streamlit key, and returns the user's
choice (`date_input` returns the picked list of dates, whose length the source
checks against 2). -/
structure UI where
  selectbox : String → List Value → String → Value
  date_input : String → Nat × Nat → String → List Nat
  slider : String → Int × Int → ℚ → String → Int × Int

/-- The interaction in which every widget is left at its default. -/
def defaultUI : UI where
  selectbox := fun _ options _ => options.getD 0 Value.na
  date_input := fun _ p _ => [p.1, p.2]
  slider := fun _ p _ _ => p

/-- Models `columns is not None and col not in columns` (the eligibility filter). -/
def columnsSkip (columns : Option (List String)) (c : String) : Bool :=
  match columns with
  | some cs => !cs.contains c
  | none => false

/-- Option values for a categorical filter: the cached `unique_values[col]`
when present, else `sorted(data[col].dropna().unique().tolist())`
(`none` models the uncaught `KeyError` when the column is absent). -/
def catValues (cols : List String) (rows : List (List Value))
    (uv : List (String × List Value)) (c : String) : Option (List Value) :=
  match uv.lookup c with
  | some v => some v
  | none => (colValsAt cols rows c).map (fun vs => sortVals (dedupF (dropNa vs)))

/-- The selectbox interaction of the categorical loop (lines 48-55): the
selection is recorded only when it differs from the `All` option. -/
def catSelect (ui : UI) (c : String) (k : String) (values : List Value)
    (fs : List (String × Value)) : List (String × Value) :=
  let allOpt := Value.str ("All " ++ c)
  let sel := ui.selectbox ("Filter by " ++ c ++ ":") (allOpt :: values) k
  if sel == allOpt then fs else fs ++ [(c, sel)]

/-- The categorical-filter loop (dynamic_filters.py lines 33-57).  State is
`(filter_count, filters, widgets created so far)`. -/
def catLoop (cols : List String) (rows : List (List Value))
    (uv : List (String × List Value)) (columns : Option (List String))
    (maxF : Nat) (ui : UI) :
    List String → Nat → List (String × Value) → List FilterSpec →
    Option (Nat × List (String × Value) × List FilterSpec)
  | [], n, fs, specs => some (n, fs, specs)
  | c :: rest, n, fs, specs =>
    if columnsSkip columns c then catLoop cols rows uv columns maxF ui rest n fs specs
    else if maxF ≤ n then some (n, fs, specs)
    else
      match catValues cols rows uv c with
      | none => none
      | some values =>
        if values.length ≤ 100 then
          catLoop cols rows uv columns maxF ui rest (n + 1)
            (catSelect ui c ("filter_" ++ c ++ "_" ++ toString n) values fs)
            (specs ++ [FilterSpec.enumChoice c (Value.str ("All " ++ c) :: values)])
        else catLoop cols rows uv columns maxF ui rest n fs specs

/-- Models `data[col].min().date()` / `.max().date()` for the date loop: defined only
when the column exists and its non-missing values are datetimes (anything
else raises inside the `try` and is caught, yielding no filter). -/
def dateMinMax (cols : List String) (rows : List (List Value)) (c : String) :
    Option (Nat × Nat) :=
  match colValsAt cols rows c with
  | none => none
  | some vs =>
    if (dropNa vs).all Value.isDate then
      match (dropNa vs).filterMap
          (fun v => match v with | .dateV d => some d | _ => none) with
      | [] => none
      | d :: ds => some (ds.foldl Nat.min d, ds.foldl Nat.max d)
    else none

/-- The date-input interaction of the date loop (lines 74-85): the start/end
selections are recorded only when the picked range has both endpoints. -/
def datePick (ui : UI) (c : String) (k : String) (mn mx : Nat)
    (fs : List (String × Value)) : List (String × Value) :=
  let dr := ui.date_input ("Select range for " ++ c ++ ":") (mn, mx) k
  if dr.length == 2 then
    fs ++ [(c ++ "_start", Value.dateV (dr.getD 0 0)),
           (c ++ "_end", Value.dateV (dr.getD 1 0))]
  else fs

/-- The date-range loop (dynamic_filters.py lines 60-89); exceptions inside
the body are caught (`st.error`), producing no widget and no count change. -/
def dateLoop (cols : List String) (rows : List (List Value))
    (columns : Option (List String)) (maxF : Nat) (ui : UI) :
    List String → Nat → List (String × Value) → List FilterSpec →
    Nat × List (String × Value) × List FilterSpec
  | [], n, fs, specs => (n, fs, specs)
  | c :: rest, n, fs, specs =>
    if columnsSkip columns c then dateLoop cols rows columns maxF ui rest n fs specs
    else if maxF ≤ n then (n, fs, specs)
    else
      match dateMinMax cols rows c with
      | none => dateLoop cols rows columns maxF ui rest n fs specs
      | some (mn, mx) =>
        if mn == mx then dateLoop cols rows columns maxF ui rest n fs specs
        else
          dateLoop cols rows columns maxF ui rest (n + 1)
            (datePick ui c ("date_range_" ++ c ++ "_" ++ toString n) mn mx fs)
            (specs ++ [FilterSpec.dateRange c mn mx])

/-- Models `float(data[col].min())` / `float(data[col].max())` for the numeric loop;
defined when the column exists and holds at least one number. -/
def numMinMax (cols : List String) (rows : List (List Value)) (c : String) :
    Option (Int × Int) :=
  match colValsAt cols rows c with
  | none => none
  | some vs =>
    if (dropNa vs).all Value.isNum then
      match (dropNa vs).filterMap
          (fun v => match v with | .num x => some x | _ => none) with
      | [] => none
      | x :: xs => some (xs.foldl min x, xs.foldl max x)
    else none

/-- The slider step heuristic (dynamic_filters.py lines 107-115). -/
def stepOf (mn mx : Int) : ℚ :=
  let range : ℚ := (mx : ℚ) - (mn : ℚ)
  if range > 1000 then range / 100
  else if range > 100 then 1
  else if range > 10 then (1 : ℚ) / 10
  else (1 : ℚ) / 100

/-- The slider interaction of the numeric loop (lines 118-130): the bounds
are recorded only when the user narrowed the range. -/
def sliderPick (ui : UI) (c : String) (k : String) (mn mx : Int)
    (fs : List (String × Value)) : List (String × Value) :=
  let lohi := ui.slider ("Select range for " ++ c ++ ":") (mn, mx) (stepOf mn mx) k
  if mn < lohi.1 || lohi.2 < mx then
    fs ++ [(c ++ "_min", Value.num lohi.1), (c ++ "_max", Value.num lohi.2)]
  else fs

/-- The numeric-range loop (dynamic_filters.py lines 92-134). -/
def numLoop (cols : List String) (rows : List (List Value))
    (columns : Option (List String)) (maxF : Nat) (ui : UI) :
    List String → Nat → List (String × Value) → List FilterSpec →
    Nat × List (String × Value) × List FilterSpec
  | [], n, fs, specs => (n, fs, specs)
  | c :: rest, n, fs, specs =>
    if columnsSkip columns c then numLoop cols rows columns maxF ui rest n fs specs
    else if maxF ≤ n then (n, fs, specs)
    else
      match numMinMax cols rows c with
      | none => numLoop cols rows columns maxF ui rest n fs specs
      | some (mn, mx) =>
        if mn == mx then numLoop cols rows columns maxF ui rest n fs specs
        else
          numLoop cols rows columns maxF ui rest (n + 1)
            (sliderPick ui c ("range_" ++ c ++ "_" ++ toString n) mn mx fs)
            (specs ++ [FilterSpec.numRange c mn mx (stepOf mn mx)])

/-- The fallback eligibility scan (dynamic_filters.py lines 139-145):
object dtype or fewer than 10 distinct values (missing marker included,
as `Series.unique` keeps `NaN`). -/
def fallbackEligible (cols : List String) (rows : List (List Value))
    (columns : Option (List String)) : List String :=
  cols.filter (fun c =>
    !columnsSkip columns c &&
    (let vs := (colValsAt cols rows c).getD []
     vs.any Value.isStr || decide ((dedupF vs).length < 10)))

/-- The fallback emission loop (dynamic_filters.py lines 148-160). -/
def fallbackLoop (cols : List String) (rows : List (List Value)) (ui : UI) :
    List String → List (String × Value) → List FilterSpec →
    List (String × Value) × List FilterSpec
  | [], fs, specs => (fs, specs)
  | c :: rest, fs, specs =>
    let values := sortVals (dedupF (dropNa ((colValsAt cols rows c).getD [])))
    if values.length ≤ 100 then
      fallbackLoop cols rows ui rest
        (catSelect ui c ("basic_filter_" ++ c) values fs)
        (specs ++ [FilterSpec.enumChoice c (Value.str ("All " ++ c) :: values)])
    else fallbackLoop cols rows ui rest fs specs

/-- Models `column_types.get(kind, [])`. -/
def ctGet (ct : List (String × List String)) (k : String) : List String :=
  (ct.lookup k).getD []

/-- Embedding of `generate_dynamic_filters(data, columns, max_filters)` (dynamic_filters.py
lines 5-162): returns the selections dictionary together with the ordered list
of widgets created; `none` models the uncaught `KeyError` of the categorical
recomputation path. -/
def generate_dynamic_filters (df : DataFrame) (columns : Option (List String))
    (maxF : Nat) (ui : UI) :
    Option (List (String × Value) × List FilterSpec) :=
  if dfEmpty df then some ([], [])
  else
    match df.attrs.column_types with
    | some ct =>
      match catLoop df.cols df.rows df.attrs.unique_values columns maxF ui
          (ctGet ct "categorical") 0 [] [] with
      | none => none
      | some (n1, f1, s1) =>
        let r2 := dateLoop df.cols df.rows columns maxF ui (ctGet ct "datetime") n1 f1 s1
        let r3 := numLoop df.cols df.rows columns maxF ui (ctGet ct "numeric")
          r2.1 r2.2.1 r2.2.2
        some (r3.2.1, r3.2.2)
    | none =>
      some (fallbackLoop df.cols df.rows ui
        ((fallbackEligible df.cols df.rows columns).take maxF) [] [])

/-! ## General lemmas about the filter applier -/

theorem lookupColIdx_eq_none {cols : List String} {c : String} :
    lookupColIdx cols c = none ↔ c ∉ cols := by
  unfold lookupColIdx
  rw [List.findIdx?_eq_none_iff]
  constructor
  · intro h hc
    have := h c hc
    simp at this
  · intro h x hx
    have hxc : x ≠ c := by
      intro he
      exact h (he ▸ hx)
    simp [hxc]

theorem lookupColIdx_isSome {cols : List String} {c : String} (h : c ∈ cols) :
    ∃ j, lookupColIdx cols c = some j := by
  cases hj : lookupColIdx cols c with
  | some j => exact ⟨j, rfl⟩
  | none => exact absurd (lookupColIdx_eq_none.1 hj) (by simp [h])

theorem applyOne_none {df : DataFrame} {k : String} {v : Value}
    (h : stripKeyCol k ∉ df.cols) : applyOne df k v = none := by
  unfold applyOne filterRows
  rw [lookupColIdx_eq_none.2 h]
  rfl

theorem applyOne_some {df d' : DataFrame} {k : String} {v : Value}
    (h : applyOne df k v = some d') :
    d'.cols = df.cols ∧ d'.rows.Sublist df.rows := by
  unfold applyOne filterRows at h
  rw [Option.map_eq_some'] at h
  obtain ⟨j, _, hd⟩ := h
  subst hd
  exact ⟨rfl, List.filter_sublist df.rows⟩

theorem applyList_some {fs : List (String × Value)} :
    ∀ {df d' : DataFrame}, applyList df fs = some d' →
      d'.cols = df.cols ∧ d'.rows.Sublist df.rows := by
  induction fs with
  | nil =>
    intro df d' h
    cases h
    exact ⟨rfl, List.Sublist.refl _⟩
  | cons kv rest ih =>
    intro df d' h
    obtain ⟨k, v⟩ := kv
    unfold applyList at h
    cases hone : applyOne df k v with
    | none => rw [hone] at h; cases h
    | some d1 =>
      rw [hone] at h
      obtain ⟨h1, h2⟩ := applyOne_some hone
      obtain ⟨h3, h4⟩ := ih h
      exact ⟨h3.trans h1, h4.trans h2⟩

theorem applyList_missing {k : String} {v : Value} {fs : List (String × Value)} :
    ∀ {df : DataFrame}, (k, v) ∈ fs → stripKeyCol k ∉ df.cols →
      applyList df fs = none := by
  induction fs with
  | nil => intro df h; cases h
  | cons kv rest ih =>
    intro df hmem hcol
    obtain ⟨k', v'⟩ := kv
    unfold applyList
    cases hone : applyOne df k' v' with
    | none => rfl
    | some d1 =>
      rcases List.mem_cons.1 hmem with hhd | htl
      · rw [Prod.mk.injEq] at hhd
        rw [← hhd.1, ← hhd.2, applyOne_none hcol] at hone
        cases hone
      · have hc1 : stripKeyCol k ∉ d1.cols := by
          rw [(applyOne_some hone).1]
          exact hcol
        exact ih htl hc1

/-- C5: `detect_column_types` and `apply_filters` leave the input dataset's
columns, rows and values unchanged; `detect_column_types` only rewrites the
`attrs` metadata, and a successful `apply_filters` returns a new frame whose
rows are a selection (sublist) of the input's rows over the same columns. -/
theorem detect_and_apply_preserve_dataset (df : DataFrame) :
    (detect_column_types df).cols = df.cols ∧
    (detect_column_types df).rows = df.rows ∧
    ∀ (fs : List (String × Value)) (d' : DataFrame),
      apply_filters df fs = some d' →
      d'.cols = df.cols ∧ d'.rows.Sublist df.rows := by
  refine ⟨rfl, rfl, ?_⟩
  intro fs d' h
  unfold apply_filters at h
  by_cases hc : (fs.isEmpty || dfEmpty df) = true
  · rw [if_pos hc] at h
    cases h
    exact ⟨rfl, List.Sublist.refl _⟩
  · rw [if_neg hc] at h
    exact applyList_some h

def dfW5 : DataFrame :=
  ⟨["A"], [[Value.str "x"], [Value.str "y"]], ⟨none, []⟩⟩

def dfW5' : DataFrame :=
  ⟨["A"], [[Value.str "x"]], ⟨none, []⟩⟩

/-- Witness for C5 at a concrete frame and a concrete selection. -/
theorem detect_and_apply_preserve_dataset_witness :
    (detect_column_types dfW5).cols = dfW5.cols ∧
    (detect_column_types dfW5).rows = dfW5.rows ∧
    (dfW5'.cols = dfW5.cols ∧ dfW5'.rows.Sublist dfW5.rows) := by
  obtain ⟨h1, h2, h3⟩ := detect_and_apply_preserve_dataset dfW5
  exact ⟨h1, h2, h3 [("A", Value.str "x")] dfW5' (by rfl)⟩

def dfC1 : DataFrame := ⟨["A"], [[Value.str "x"]], ⟨none, []⟩⟩

/-- C1 counterexample: a selection whose key names a column absent from the
dataset is not skipped — `apply_filters` fails (the source raises `KeyError`
at `filtered_data[col]`), instead of returning the dataset filtered by the
remaining (empty) selection set. -/
theorem apply_filters_missing_column_counterexample :
    apply_filters dfC1 [("B", Value.str "x")] = none ∧
    apply_filters dfC1 [("B", Value.str "x")] ≠ some dfC1 := by
  exact ⟨rfl, by decide⟩

/-- C1 amended: whenever a non-empty selection map contains a key whose
suffix-stripped column is not a column of the (non-empty) dataset,
`apply_filters` raises (modelled `none`) rather than treating the selection
as a no-op. -/
theorem apply_filters_missing_column_raises (df : DataFrame)
    (fs : List (String × Value)) (k : String) (v : Value)
    (hmem : (k, v) ∈ fs) (hne : dfEmpty df = false)
    (hcol : stripKeyCol k ∉ df.cols) :
    apply_filters df fs = none := by
  have hfs : fs.isEmpty = false := by
    cases fs with
    | nil => cases hmem
    | cons a l => rfl
  unfold apply_filters
  rw [hfs, hne]
  simp only [Bool.or_self, Bool.false_or, if_false]
  exact applyList_missing hmem hcol

/-- Witness for the amended C1 at a concrete frame and selection. -/
theorem apply_filters_missing_column_raises_witness :
    apply_filters dfC1 [("B", Value.str "x")] = none := by
  exact apply_filters_missing_column_raises dfC1 [("B", Value.str "x")] "B"
    (Value.str "x") (by decide) (by decide) (by decide)

/-! ## Conjunctive characterization of apply_filters -/

/-- The cell of row `r` in the column named `c`. -/
def cellAt (cols : List String) (r : List Value) (c : String) : Value :=
  match lookupColIdx cols c with
  | some j => r.getD j Value.na
  | none => Value.na

/-- Whether row `r` satisfies one selection, per the suffix convention. -/
def selSat (cols : List String) (kv : String × Value) (r : List Value) : Bool :=
  predOf kv.1 kv.2 (cellAt cols r (stripKeyCol kv.1))

theorem applyOne_present {df : DataFrame} {k : String} {v : Value} {j : Nat}
    (hj : lookupColIdx df.cols (stripKeyCol k) = some j) :
    applyOne df k v =
      some { df with rows := df.rows.filter (fun r => selSat df.cols (k, v) r) } := by
  unfold applyOne filterRows
  rw [hj, Option.map_some']
  have hrw : df.rows.filter (fun r => predOf k v (r.getD j Value.na)) =
      df.rows.filter (fun r => selSat df.cols (k, v) r) := by
    apply List.filter_congr
    intro r _
    simp [selSat, cellAt, hj]
  rw [hrw]

theorem applyList_conj {fs : List (String × Value)} :
    ∀ {df : DataFrame}, (∀ kv ∈ fs, stripKeyCol kv.1 ∈ df.cols) →
      applyList df fs =
        some { df with
               rows := df.rows.filter (fun r => fs.all (fun kv => selSat df.cols kv r)) } := by
  induction fs with
  | nil =>
    intro df _
    show some df = _
    have : df.rows.filter (fun r => List.all [] (fun kv => selSat df.cols kv r)) = df.rows := by
      simp
    rw [this]
  | cons kv rest ih =>
    intro df h
    obtain ⟨k, v⟩ := kv
    have hk : stripKeyCol k ∈ df.cols := h (k, v) (List.mem_cons_self _ _)
    obtain ⟨j, hj⟩ := lookupColIdx_isSome hk
    unfold applyList
    rw [applyOne_present hj]
    dsimp only
    have hrest : ∀ kv ∈ rest, stripKeyCol kv.1 ∈
        (DataFrame.mk df.cols
          (List.filter (fun r => selSat df.cols (k, v) r) df.rows) df.attrs).cols :=
      fun kv hkv => h kv (List.mem_cons_of_mem _ hkv)
    rw [ih hrest]
    congr 1
    congr 1
    rw [List.filter_filter]
    apply List.filter_congr
    intro r _
    simp [List.all_cons, Bool.and_comm]

/-- C6: all selections combine by conjunction — plain keys filter by equality,
`_min`/`_start` keys by `≥`, `_max`/`_end` keys by `≤` on the suffix-stripped
column — so `apply_filters` returns exactly the rows satisfying every
selection (whenever every referenced column exists). -/
theorem apply_filters_conjunction (df : DataFrame) (fs : List (String × Value))
    (hne : fs ≠ []) (hcols : ∀ kv ∈ fs, stripKeyCol kv.1 ∈ df.cols) :
    apply_filters df fs =
      some { df with
             rows := df.rows.filter (fun r => fs.all (fun kv => selSat df.cols kv r)) } := by
  have hfs : fs.isEmpty = false := by
    cases fs with
    | nil => exact absurd rfl hne
    | cons a l => rfl
  obtain ⟨dc, drw, da⟩ := df
  unfold apply_filters
  rw [hfs]
  by_cases hr : drw = []
  · subst hr
    have he : dfEmpty ⟨dc, [], da⟩ = true := by simp [dfEmpty]
    rw [he]
    simp
  · have hcne : dc ≠ [] := by
      obtain ⟨kv, hkv⟩ := List.exists_mem_of_ne_nil fs hne
      intro hc
      have := hcols kv hkv
      rw [hc] at this
      cases this
    have he : dfEmpty ⟨dc, drw, da⟩ = false := by
      simp [dfEmpty, hr, hcne]
    rw [he]
    simp only [Bool.or_false, Bool.false_or]
    exact applyList_conj hcols

def dfW6 : DataFrame :=
  ⟨["Category", "Amount"],
   [[Value.str "A", Value.num 150], [Value.str "B", Value.num 200],
    [Value.str "A", Value.num 50]],
   ⟨none, []⟩⟩

/-- Witness for C6 at the claim's own instance
`{Category: "A", Amount_min: 100}`. -/
theorem apply_filters_conjunction_witness :
    apply_filters dfW6 [("Category", Value.str "A"), ("Amount_min", Value.num 100)] =
      some { dfW6 with
             rows := dfW6.rows.filter (fun r =>
               List.all [("Category", Value.str "A"), ("Amount_min", Value.num 100)]
                 (fun kv => selSat dfW6.cols kv r)) } := by
  exact apply_filters_conjunction dfW6
    [("Category", Value.str "A"), ("Amount_min", Value.num 100)]
    (by decide) (by decide)

/-! ## Suffix precedence in selection keys -/

theorem pfx_head {a : Char} {as l : List Char} (h : pfx (a :: as) l = true) :
    ∃ bs, l = a :: bs := by
  cases l with
  | nil => simp [pfx] at h
  | cons b bs =>
    refine ⟨bs, ?_⟩
    have hab : (a == b) = true := by
      unfold pfx at h
      rw [Bool.and_eq_true] at h
      exact h.1
    rw [show a = b from by exact beq_iff_eq.1 hab]

theorem strEndsWith_false {s t : String} {c c' : Char} {bs cs : List Char}
    (hs : s.data.reverse = c :: bs) (ht : t.data.reverse = c' :: cs)
    (hne : (c' == c) = false) : strEndsWith s t = false := by
  unfold strEndsWith
  rw [hs, ht]
  simp [pfx, hne]

def dfPm : DataFrame := ⟨["Price_min"], [[Value.num 5]], ⟨none, []⟩⟩

/-- C10: a selection key ending in `_min`/`_max`/`_start`/`_end` is always
interpreted as a range bound on the suffix-stripped column, never as an
equality filter — even when the dataset has a column literally carrying the
suffixed name, as the concrete `Price_min` frame shows (the selection targets
the absent column `Price` and fails, instead of equality-matching the
existing `Price_min` column). -/
theorem suffix_keys_always_range :
    (∀ (df : DataFrame) (k : String) (v : Value), strEndsWith k "_min" = true →
      applyOne df k v = filterRows df (strDropRight k 4) (fun c => vge c v)) ∧
    (∀ (df : DataFrame) (k : String) (v : Value), strEndsWith k "_max" = true →
      applyOne df k v = filterRows df (strDropRight k 4) (fun c => vleP c v)) ∧
    (∀ (df : DataFrame) (k : String) (v : Value), strEndsWith k "_start" = true →
      applyOne df k v = filterRows df (strDropRight k 6) (fun c => vge c v)) ∧
    (∀ (df : DataFrame) (k : String) (v : Value), strEndsWith k "_end" = true →
      applyOne df k v = filterRows df (strDropRight k 4) (fun c => vleP c v)) ∧
    apply_filters dfPm [("Price_min", Value.num 5)] = none := by
  refine ⟨?_, ?_, ?_, ?_, by decide⟩
  · intro df k v h
    unfold applyOne stripKeyCol predOf
    rw [h]
    simp
  · intro df k v h
    obtain ⟨bs, hk⟩ := pfx_head (show pfx ['x', 'a', 'm', '_'] k.data.reverse = true from h)
    have hmin : strEndsWith k "_min" = false :=
      strEndsWith_false hk (show ("_min" : String).data.reverse = 'n' :: ['i', 'm', '_'] from rfl)
        (by decide)
    unfold applyOne stripKeyCol predOf
    rw [hmin, h]
    simp
  · intro df k v h
    obtain ⟨bs, hk⟩ := pfx_head (show pfx ['t', 'r', 'a', 't', 's', '_'] k.data.reverse = true from h)
    have hmin : strEndsWith k "_min" = false :=
      strEndsWith_false hk (show ("_min" : String).data.reverse = 'n' :: ['i', 'm', '_'] from rfl)
        (by decide)
    have hmax : strEndsWith k "_max" = false :=
      strEndsWith_false hk (show ("_max" : String).data.reverse = 'x' :: ['a', 'm', '_'] from rfl)
        (by decide)
    unfold applyOne stripKeyCol predOf
    rw [hmin, hmax, h]
    simp
  · intro df k v h
    obtain ⟨bs, hk⟩ := pfx_head (show pfx ['d', 'n', 'e', '_'] k.data.reverse = true from h)
    have hmin : strEndsWith k "_min" = false :=
      strEndsWith_false hk (show ("_min" : String).data.reverse = 'n' :: ['i', 'm', '_'] from rfl)
        (by decide)
    have hmax : strEndsWith k "_max" = false :=
      strEndsWith_false hk (show ("_max" : String).data.reverse = 'x' :: ['a', 'm', '_'] from rfl)
        (by decide)
    have hstart : strEndsWith k "_start" = false :=
      strEndsWith_false hk
        (show ("_start" : String).data.reverse = 't' :: ['r', 'a', 't', 's', '_'] from rfl)
        (by decide)
    unfold applyOne stripKeyCol predOf
    rw [hmin, hmax, hstart, h]
    simp

/-- Witness for C10 at the concrete suffixed keys. -/
theorem suffix_keys_always_range_witness :
    applyOne dfPm "Price_min" (Value.num 5) =
      filterRows dfPm (strDropRight "Price_min" 4) (fun c => vge c (Value.num 5)) := by
  exact suffix_keys_always_range.1 dfPm "Price_min" (Value.num 5) (by decide)

/-! ## Classifier threshold and date-failure behavior -/

theorem not_all_na_of_dropNa_len {vs : List Value} {n : Nat}
    (h : (dropNa vs).length = n) (hn : n ≠ 0) : vs.all Value.isNa = false := by
  by_contra hall
  rw [Bool.not_eq_false] at hall
  have hnil : dropNa vs = [] := by
    unfold dropNa
    rw [List.filter_eq_nil_iff]
    intro v hv
    have := (List.all_eq_true.1 hall) v hv
    simp [this]
  rw [hnil] at h
  exact hn h.symm

/-- C7: under the categorical-or-text rule (a non-numeric column whose name
carries no identifier and no date token), exactly 50 distinct values out of
200 non-missing rows classifies Categorical, while 51 distinct values out of
200 classifies Text (51 > 50 and 5·51 > 200). -/
theorem categorical_threshold (name : String) (vs vs' : List Value)
    (hid : hasTok name idTokens = false) (hdt : hasTok name dateTokens = false)
    (hnd : numericDtype vs = false) (hnd' : numericDtype vs' = false)
    (hu : nuniq vs = 50) (ht : (dropNa vs).length = 200)
    (hu' : nuniq vs' = 51) (ht' : (dropNa vs').length = 200) :
    classifyCol name vs = some Classification.categorical ∧
    classifyCol name vs' = some Classification.text := by
  have hna : vs.all Value.isNa = false := not_all_na_of_dropNa_len ht (by decide)
  have hna' : vs'.all Value.isNa = false := not_all_na_of_dropNa_len ht' (by decide)
  constructor
  · unfold classifyCol
    rw [hna, hid, hnd, hdt]
    have hth : catThresh vs = true := by
      unfold catThresh
      rw [hu]
      simp
    rw [hth]
    simp
  · unfold classifyCol
    rw [hna', hid, hnd', hdt]
    have hth : catThresh vs' = false := by
      unfold catThresh
      rw [hu', ht']
      simp
    rw [hth]
    simp

def vsW7a : List Value := (List.range 200).map (fun i => Value.str ("g" ++ toString (i % 50)))

def vsW7b : List Value := (List.range 200).map (fun i => Value.str ("g" ++ toString (min i 50)))

/-- Witness for C7 on concrete 200-row columns with 50 and 51 distinct values. -/
theorem categorical_threshold_witness :
    classifyCol "Region" vsW7a = some Classification.categorical ∧
    classifyCol "Region" vsW7b = some Classification.text := by
  exact categorical_threshold "Region" vsW7a vsW7b (by decide) (by decide)
    (by decide) (by decide) (by decide) (by decide) (by decide) (by decide)

/-- C9: when a column's name carries a date token but its values do not all
parse as dates, the classifier does not classify it Date and does not raise:
the column falls through to the categorical-or-text rule, and schema
construction still completes with a full descriptor for any dataset. -/
theorem date_parse_failure_falls_through (name : String) (vs : List Value)
    (df : DataFrame)
    (hdt : hasTok name dateTokens = true) (hp : allParseDates vs = false)
    (hna : vs.all Value.isNa = false) (hid : hasTok name idTokens = false)
    (hnd : numericDtype vs = false) :
    classifyCol name vs =
      some (if catThresh vs then Classification.categorical else Classification.text) ∧
    ((detect_column_types df).attrs.column_types).isSome = true := by
  constructor
  · unfold classifyCol
    rw [hna, hid, hnd, hdt, hp]
    simp only [Bool.true_and, Bool.false_eq_true, if_false]
    by_cases hth : catThresh vs = true
    · rw [hth]
      simp
    · rw [Bool.not_eq_true] at hth
      rw [hth]
      simp
  · rfl

def vsW9 : List Value := [Value.str "2022-01-01", Value.str "bogus"]

/-- Witness for C9 on a date-named column with an unparseable value. -/
theorem date_parse_failure_falls_through_witness :
    classifyCol "OrderDate" vsW9 =
      some (if catThresh vsW9 then Classification.categorical else Classification.text) ∧
    ((detect_column_types dfW5).attrs.column_types).isSome = true := by
  exact date_parse_failure_falls_through "OrderDate" vsW9 dfW5 (by decide)
    (by decide) (by decide) (by decide) (by decide)

/-! ## Synthesizer budget accounting -/

theorem catLoop_inv {cols : List String} {rows : List (List Value)}
    {uv : List (String × List Value)} {columns : Option (List String)}
    {maxF : Nat} {ui : UI} :
    ∀ (l : List String) (n : Nat) (fs : List (String × Value))
      (specs : List FilterSpec) (n' : Nat) (fs' : List (String × Value))
      (specs' : List FilterSpec),
      catLoop cols rows uv columns maxF ui l n fs specs = some (n', fs', specs') →
      specs'.length + n = specs.length + n' ∧ n ≤ n' ∧ (n ≤ maxF → n' ≤ maxF) := by
  intro l
  induction l with
  | nil =>
    intro n fs specs n' fs' specs' h
    simp only [catLoop, Option.some.injEq, Prod.mk.injEq] at h
    obtain ⟨h1, _, h3⟩ := h
    subst h1
    subst h3
    exact ⟨rfl, Nat.le_refl n, fun hh => hh⟩
  | cons c rest ih =>
    intro n fs specs n' fs' specs' h
    simp only [catLoop] at h
    split at h
    · exact ih _ _ _ _ _ _ h
    · split at h
      · simp only [Option.some.injEq, Prod.mk.injEq] at h
        obtain ⟨h1, _, h3⟩ := h
        subst h1
        subst h3
        exact ⟨rfl, Nat.le_refl n, fun hh => hh⟩
      · rename_i hskip hle
        split at h
        · cases h
        · rename_i values hv
          split at h
          · obtain ⟨i1, i2, i3⟩ := ih _ _ _ _ _ _ h
            rw [List.length_append, List.length_singleton] at i1
            refine ⟨by omega, by omega, fun hnm => i3 (by omega)⟩
          · exact ih _ _ _ _ _ _ h

theorem dateLoop_inv (cols : List String) (rows : List (List Value))
    (columns : Option (List String)) (maxF : Nat) (ui : UI) :
    ∀ (l : List String) (n : Nat) (fs : List (String × Value))
      (specs : List FilterSpec),
      ((dateLoop cols rows columns maxF ui l n fs specs).2.2.length + n =
        specs.length + (dateLoop cols rows columns maxF ui l n fs specs).1) ∧
      (n ≤ maxF → (dateLoop cols rows columns maxF ui l n fs specs).1 ≤ maxF) := by
  intro l
  induction l with
  | nil =>
    intro n fs specs
    exact ⟨rfl, fun hh => hh⟩
  | cons c rest ih =>
    intro n fs specs
    simp only [dateLoop]
    split
    · exact ih _ _ _
    · split
      · exact ⟨rfl, fun hh => hh⟩
      · rename_i hskip hle
        split
        · exact ih _ _ _
        · rename_i mn mx hdm
          split
          · exact ih _ _ _
          · obtain ⟨i1, i2⟩ := ih (n + 1)
              (datePick ui c ("date_range_" ++ c ++ "_" ++ toString n) mn mx fs)
              (specs ++ [FilterSpec.dateRange c mn mx])
            rw [List.length_append, List.length_singleton] at i1
            refine ⟨by omega, fun hnm => i2 (by omega)⟩

theorem numLoop_inv (cols : List String) (rows : List (List Value))
    (columns : Option (List String)) (maxF : Nat) (ui : UI) :
    ∀ (l : List String) (n : Nat) (fs : List (String × Value))
      (specs : List FilterSpec),
      ((numLoop cols rows columns maxF ui l n fs specs).2.2.length + n =
        specs.length + (numLoop cols rows columns maxF ui l n fs specs).1) ∧
      (n ≤ maxF → (numLoop cols rows columns maxF ui l n fs specs).1 ≤ maxF) := by
  intro l
  induction l with
  | nil =>
    intro n fs specs
    exact ⟨rfl, fun hh => hh⟩
  | cons c rest ih =>
    intro n fs specs
    simp only [numLoop]
    split
    · exact ih _ _ _
    · split
      · exact ⟨rfl, fun hh => hh⟩
      · rename_i hskip hle
        split
        · exact ih _ _ _
        · rename_i mn mx hnm2
          split
          · exact ih _ _ _
          · obtain ⟨i1, i2⟩ := ih (n + 1)
              (sliderPick ui c ("range_" ++ c ++ "_" ++ toString n) mn mx fs)
              (specs ++ [FilterSpec.numRange c mn mx (stepOf mn mx)])
            rw [List.length_append, List.length_singleton] at i1
            refine ⟨by omega, fun hnm => i2 (by omega)⟩

theorem fallbackLoop_len (cols : List String) (rows : List (List Value)) (ui : UI) :
    ∀ (l : List String) (fs : List (String × Value)) (specs : List FilterSpec),
      ((fallbackLoop cols rows ui l fs specs).2).length ≤ specs.length + l.length := by
  intro l
  induction l with
  | nil =>
    intro fs specs
    simp [fallbackLoop]
  | cons c rest ih =>
    intro fs specs
    simp only [fallbackLoop]
    split
    · have := ih
        (catSelect ui c ("basic_filter_" ++ c)
          (sortVals (dedupF (dropNa ((colValsAt cols rows c).getD [])))) fs)
        (specs ++ [FilterSpec.enumChoice c
          (Value.str ("All " ++ c) ::
            sortVals (dedupF (dropNa ((colValsAt cols rows c).getD []))))])
      rw [List.length_append, List.length_singleton] at this
      simp only [List.length_cons]
      omega
    · have := ih fs specs
      simp only [List.length_cons]
      omega

/-- C3: the synthesizer never emits more than `max_filters` filter specs,
in the schema-driven path and in the fallback path alike — one global cap
across the categorical, date and numeric kinds. -/
theorem filter_budget_cap (df : DataFrame) (columns : Option (List String))
    (maxF : Nat) (ui : UI) (fs : List (String × Value)) (specs : List FilterSpec)
    (h : generate_dynamic_filters df columns maxF ui = some (fs, specs)) :
    specs.length ≤ maxF := by
  unfold generate_dynamic_filters at h
  split at h
  · simp only [Option.some.injEq, Prod.mk.injEq] at h
    rw [← h.2]
    exact Nat.zero_le _
  · split at h
    · rename_i ct hct
      split at h
      · cases h
      · rename_i n1 f1 s1 hcat
        simp only [Option.some.injEq, Prod.mk.injEq] at h
        obtain ⟨c1, c2, c3⟩ := catLoop_inv _ _ _ _ _ _ _ hcat
        simp only [List.length_nil, Nat.add_zero, Nat.zero_add] at c1
        obtain ⟨d1, d2⟩ := dateLoop_inv df.cols df.rows columns maxF ui
          (ctGet ct "datetime") n1 f1 s1
        obtain ⟨e1, e2⟩ := numLoop_inv df.cols df.rows columns maxF ui
          (ctGet ct "numeric")
          (dateLoop df.cols df.rows columns maxF ui (ctGet ct "datetime") n1 f1 s1).1
          (dateLoop df.cols df.rows columns maxF ui (ctGet ct "datetime") n1 f1 s1).2.1
          (dateLoop df.cols df.rows columns maxF ui (ctGet ct "datetime") n1 f1 s1).2.2
        rw [← h.2]
        have hb1 : n1 ≤ maxF := c3 (Nat.zero_le _)
        have hb2 := d2 hb1
        have hb3 := e2 hb2
        omega
    · simp only [Option.some.injEq, Prod.mk.injEq] at h
      have h2 := congrArg Prod.snd h
      dsimp only at h2
      rw [← h2]
      have hlen := fallbackLoop_len df.cols df.rows ui
        ((fallbackEligible df.cols df.rows columns).take maxF) [] []
      simp only [List.length_nil, Nat.zero_add] at hlen
      have htake : ((fallbackEligible df.cols df.rows columns).take maxF).length ≤ maxF := by
        rw [List.length_take]
        omega
      omega

/-- Witness frame for the budget cap: one categorical schema entry, cap 1. -/
def dfW3 : DataFrame :=
  ⟨["P", "Q"], [[Value.str "u", Value.str "v"]],
   ⟨some [("categorical", ["P", "Q"])], []⟩⟩

/-- Witness for C3: the concrete run emits one spec under cap 1. -/
theorem filter_budget_cap_witness :
    ([FilterSpec.enumChoice "P" [Value.str "All P", Value.str "u"]] :
      List FilterSpec).length ≤ 1 := by
  exact filter_budget_cap dfW3 none 1 defaultUI []
    [FilterSpec.enumChoice "P" [Value.str "All P", Value.str "u"]] (by rfl)

/-! ## Kind-priority ordering of emitted specs -/

theorem catLoop_shape {cols : List String} {rows : List (List Value)}
    {uv : List (String × List Value)} {columns : Option (List String)}
    {maxF : Nat} {ui : UI} :
    ∀ (l : List String) (n : Nat) (fs : List (String × Value))
      (specs : List FilterSpec) (n' : Nat) (fs' : List (String × Value))
      (specs' : List FilterSpec),
      catLoop cols rows uv columns maxF ui l n fs specs = some (n', fs', specs') →
      ∃ ex, specs' = specs ++ ex ∧ ∀ x ∈ ex, x.isEnum = true := by
  intro l
  induction l with
  | nil =>
    intro n fs specs n' fs' specs' h
    simp only [catLoop, Option.some.injEq, Prod.mk.injEq] at h
    obtain ⟨_, _, h3⟩ := h
    subst h3
    exact ⟨[], by simp, by simp⟩
  | cons c rest ih =>
    intro n fs specs n' fs' specs' h
    simp only [catLoop] at h
    split at h
    · exact ih _ _ _ _ _ _ h
    · split at h
      · simp only [Option.some.injEq, Prod.mk.injEq] at h
        obtain ⟨_, _, h3⟩ := h
        subst h3
        exact ⟨[], by simp, by simp⟩
      · split at h
        · cases h
        · rename_i values hv
          split at h
          · obtain ⟨ex, h1, h2⟩ := ih _ _ _ _ _ _ h
            refine ⟨FilterSpec.enumChoice c (Value.str ("All " ++ c) :: values) :: ex,
              ?_, ?_⟩
            · rw [h1, List.append_assoc]
              rfl
            · intro x hx
              rcases List.mem_cons.1 hx with he | hm
              · subst he
                rfl
              · exact h2 x hm
          · exact ih _ _ _ _ _ _ h

theorem dateLoop_shape (cols : List String) (rows : List (List Value))
    (columns : Option (List String)) (maxF : Nat) (ui : UI) :
    ∀ (l : List String) (n : Nat) (fs : List (String × Value))
      (specs : List FilterSpec),
      ∃ ex, (dateLoop cols rows columns maxF ui l n fs specs).2.2 = specs ++ ex ∧
        ∀ x ∈ ex, x.isDateRange = true := by
  intro l
  induction l with
  | nil =>
    intro n fs specs
    exact ⟨[], by simp [dateLoop], by simp⟩
  | cons c rest ih =>
    intro n fs specs
    simp only [dateLoop]
    split
    · exact ih _ _ _
    · split
      · exact ⟨[], by simp, by simp⟩
      · split
        · exact ih _ _ _
        · rename_i mn mx hdm
          split
          · exact ih _ _ _
          · obtain ⟨ex, h1, h2⟩ := ih (n + 1)
              (datePick ui c ("date_range_" ++ c ++ "_" ++ toString n) mn mx fs)
              (specs ++ [FilterSpec.dateRange c mn mx])
            refine ⟨FilterSpec.dateRange c mn mx :: ex, ?_, ?_⟩
            · rw [h1, List.append_assoc]
              rfl
            · intro x hx
              rcases List.mem_cons.1 hx with he | hm
              · subst he
                rfl
              · exact h2 x hm

theorem numLoop_shape (cols : List String) (rows : List (List Value))
    (columns : Option (List String)) (maxF : Nat) (ui : UI) :
    ∀ (l : List String) (n : Nat) (fs : List (String × Value))
      (specs : List FilterSpec),
      ∃ ex, (numLoop cols rows columns maxF ui l n fs specs).2.2 = specs ++ ex ∧
        ∀ x ∈ ex, x.isNumRange = true := by
  intro l
  induction l with
  | nil =>
    intro n fs specs
    exact ⟨[], by simp [numLoop], by simp⟩
  | cons c rest ih =>
    intro n fs specs
    simp only [numLoop]
    split
    · exact ih _ _ _
    · split
      · exact ⟨[], by simp, by simp⟩
      · split
        · exact ih _ _ _
        · rename_i mn mx hnm2
          split
          · exact ih _ _ _
          · obtain ⟨ex, h1, h2⟩ := ih (n + 1)
              (sliderPick ui c ("range_" ++ c ++ "_" ++ toString n) mn mx fs)
              (specs ++ [FilterSpec.numRange c mn mx (stepOf mn mx)])
            refine ⟨FilterSpec.numRange c mn mx (stepOf mn mx) :: ex, ?_, ?_⟩
            · rw [h1, List.append_assoc]
              rfl
            · intro x hx
              rcases List.mem_cons.1 hx with he | hm
              · subst he
                rfl
              · exact h2 x hm

/-- Concrete schema-bearing frame: two eligible categorical columns, one
eligible date column, one eligible numeric column. -/
def df4 : DataFrame :=
  ⟨["C1", "C2", "D", "N"],
   [[Value.str "a", Value.str "x", Value.dateV 1, Value.num 1],
    [Value.str "b", Value.str "y", Value.dateV 2, Value.num 2],
    [Value.str "a", Value.str "x", Value.dateV 3, Value.num 3]],
   ⟨some [("categorical", ["C1", "C2"]), ("datetime", ["D"]), ("numeric", ["N"])],
    []⟩⟩

/-- C4: in the schema-driven path the emitted specs are always ordered
categorical first, then date, then numeric; and on a schema with 2 eligible
categorical, 1 eligible date, 1 eligible numeric column and a budget of 2,
exactly the two categorical specs come out. -/
theorem kind_priority_ordering :
    (∀ (df : DataFrame) (columns : Option (List String)) (maxF : Nat) (ui : UI)
       (ct : List (String × List String)) (fs : List (String × Value))
       (specs : List FilterSpec),
       df.attrs.column_types = some ct →
       generate_dynamic_filters df columns maxF ui = some (fs, specs) →
       ∃ s1 s2 s3, specs = s1 ++ s2 ++ s3 ∧
         (∀ x ∈ s1, x.isEnum = true) ∧ (∀ x ∈ s2, x.isDateRange = true) ∧
         (∀ x ∈ s3, x.isNumRange = true)) ∧
    (generate_dynamic_filters df4 none 2 defaultUI).map
      (fun r => r.2.map FilterSpec.colName) = some ["C1", "C2"] ∧
    (generate_dynamic_filters df4 none 2 defaultUI).map
      (fun r => r.2.all FilterSpec.isEnum) = some true := by
  refine ⟨?_, by rfl, by rfl⟩
  intro df columns maxF ui ct fs specs hct h
  unfold generate_dynamic_filters at h
  split at h
  · simp only [Option.some.injEq, Prod.mk.injEq] at h
    exact ⟨[], [], [], by rw [← h.2]; rfl, by simp, by simp, by simp⟩
  · split at h
    · rename_i ct2 hct2
      split at h
      · cases h
      · rename_i n1 f1 s1 hcat
        simp only [Option.some.injEq, Prod.mk.injEq] at h
        obtain ⟨exc, hc1, hc2⟩ := catLoop_shape _ _ _ _ _ _ _ hcat
        obtain ⟨exd, hd1, hd2⟩ := dateLoop_shape df.cols df.rows columns maxF ui
          (ctGet ct2 "datetime") n1 f1 s1
        obtain ⟨exn, hn1, hn2⟩ := numLoop_shape df.cols df.rows columns maxF ui
          (ctGet ct2 "numeric")
          (dateLoop df.cols df.rows columns maxF ui (ctGet ct2 "datetime") n1 f1 s1).1
          (dateLoop df.cols df.rows columns maxF ui (ctGet ct2 "datetime") n1 f1 s1).2.1
          (dateLoop df.cols df.rows columns maxF ui (ctGet ct2 "datetime") n1 f1 s1).2.2
        refine ⟨s1, exd, exn, ?_, ?_, hd2, hn2⟩
        · rw [← h.2, hn1, hd1]
        · rw [List.nil_append] at hc1
          intro x hx
          exact hc2 x (hc1 ▸ hx)
    · rename_i hnone
      rw [hct] at hnone
      cases hnone

/-- The two specs of the concrete C4/C2-style run on `df4`. -/
def specsW4 : List FilterSpec :=
  [FilterSpec.enumChoice "C1" [Value.str "All C1", Value.str "a", Value.str "b"],
   FilterSpec.enumChoice "C2" [Value.str "All C2", Value.str "x", Value.str "y"]]

/-- Witness for C4 applying the general ordering to the concrete `df4` run. -/
theorem kind_priority_ordering_witness :
    ∃ s1 s2 s3, specsW4 = s1 ++ s2 ++ s3 ∧
      (∀ x ∈ s1, x.isEnum = true) ∧ (∀ x ∈ s2, x.isDateRange = true) ∧
      (∀ x ∈ s3, x.isNumRange = true) := by
  exact kind_priority_ordering.1 df4 none 2 defaultUI
    [("categorical", ["C1", "C2"]), ("datetime", ["D"]), ("numeric", ["N"])]
    [] specsW4 rfl (by rfl)

/-! ## Over-large categorical columns consume no budget -/

theorem catLoop_break {cols : List String} {rows : List (List Value)}
    {uv : List (String × List Value)} {columns : Option (List String)}
    {maxF : Nat} {ui : UI} :
    ∀ (l : List String) (n : Nat) (fs : List (String × Value))
      (specs : List FilterSpec), maxF ≤ n →
      catLoop cols rows uv columns maxF ui l n fs specs = some (n, fs, specs) := by
  intro l
  induction l with
  | nil =>
    intro n fs specs _
    rfl
  | cons c rest ih =>
    intro n fs specs hle
    simp only [catLoop]
    by_cases hs : columnsSkip columns c = true
    · rw [if_pos hs]
      exact ih n fs specs hle
    · rw [if_neg hs, if_pos hle]

theorem catLoop_skip_big (cols : List String) (rows : List (List Value))
    (uv : List (String × List Value)) (columns : Option (List String))
    (maxF : Nat) (ui : UI) (c : String) (l2 : List String) (vals : List Value)
    (hv : catValues cols rows uv c = some vals) (hlen : 100 < vals.length) :
    ∀ (l1 : List String) (n : Nat) (fs : List (String × Value))
      (specs : List FilterSpec),
      catLoop cols rows uv columns maxF ui (l1 ++ c :: l2) n fs specs =
      catLoop cols rows uv columns maxF ui (l1 ++ l2) n fs specs := by
  intro l1
  induction l1 with
  | nil =>
    intro n fs specs
    simp only [List.nil_append, catLoop]
    by_cases hs : columnsSkip columns c = true
    · rw [if_pos hs]
    · rw [if_neg hs]
      by_cases hle : maxF ≤ n
      · rw [if_pos hle, catLoop_break l2 n fs specs hle]
      · rw [if_neg hle]
        simp only [hv]
        have hgt : ¬ (vals.length ≤ 100) := by omega
        rw [if_neg hgt]
  | cons a l1' ih =>
    intro n fs specs
    simp only [List.cons_append, catLoop]
    by_cases hs : columnsSkip columns a = true
    · simp only [if_pos hs]
      exact ih n fs specs
    · simp only [if_neg hs]
      by_cases hle : maxF ≤ n
      · simp only [if_pos hle]
      · simp only [if_neg hle]
        cases hva : catValues cols rows uv a with
        | none => simp only [hva]
        | some va =>
          simp only [hva]
          by_cases hl : va.length ≤ 100
          · simp only [if_pos hl]
            exact ih (n + 1) _ _
          · simp only [if_neg hl]
            exact ih n fs specs

/-- C8: in the schema-driven path a categorical column whose distinct-value
list exceeds 100 entries is skipped without emitting a spec and without
consuming budget — the synthesizer behaves exactly as if the column were
absent from the schema. -/
theorem skipped_column_consumes_no_budget (cols : List String)
    (rows : List (List Value)) (l1 l2 dts nms : List String) (c : String)
    (uv : List (String × List Value)) (vals : List Value)
    (columns : Option (List String)) (maxF : Nat) (ui : UI)
    (hv : catValues cols rows uv c = some vals) (hlen : 100 < vals.length) :
    generate_dynamic_filters
      ⟨cols, rows,
       ⟨some [("categorical", l1 ++ c :: l2), ("datetime", dts), ("numeric", nms)], uv⟩⟩
      columns maxF ui =
    generate_dynamic_filters
      ⟨cols, rows,
       ⟨some [("categorical", l1 ++ l2), ("datetime", dts), ("numeric", nms)], uv⟩⟩
      columns maxF ui := by
  unfold generate_dynamic_filters
  by_cases he : dfEmpty ⟨cols, rows,
      ⟨some [("categorical", l1 ++ c :: l2), ("datetime", dts), ("numeric", nms)], uv⟩⟩ = true
  · have he2 : dfEmpty ⟨cols, rows,
        ⟨some [("categorical", l1 ++ l2), ("datetime", dts), ("numeric", nms)], uv⟩⟩ = true := he
    rw [if_pos he, if_pos he2]
  · have he2 : ¬ dfEmpty ⟨cols, rows,
        ⟨some [("categorical", l1 ++ l2), ("datetime", dts), ("numeric", nms)], uv⟩⟩ = true := he
    rw [if_neg he, if_neg he2]
    dsimp only
    rw [show ctGet [("categorical", l1 ++ c :: l2), ("datetime", dts), ("numeric", nms)]
          "categorical" = l1 ++ c :: l2 from rfl,
        show ctGet [("categorical", l1 ++ l2), ("datetime", dts), ("numeric", nms)]
          "categorical" = l1 ++ l2 from rfl,
        catLoop_skip_big cols rows uv columns maxF ui c l2 vals hv hlen l1 0 [] [],
        show ctGet [("categorical", l1 ++ c :: l2), ("datetime", dts), ("numeric", nms)]
          "datetime" = dts from rfl,
        show ctGet [("categorical", l1 ++ l2), ("datetime", dts), ("numeric", nms)]
          "datetime" = dts from rfl,
        show ctGet [("categorical", l1 ++ c :: l2), ("datetime", dts), ("numeric", nms)]
          "numeric" = nms from rfl,
        show ctGet [("categorical", l1 ++ l2), ("datetime", dts), ("numeric", nms)]
          "numeric" = nms from rfl]

def uvW8 : List (String × List Value) :=
  [("Big", (List.range 101).map (fun i => Value.str ("x" ++ toString i)))]

/-- Witness for C8: a cached categorical column with 101 distinct values is
skipped and the later column still gets the single budget slot. -/
theorem skipped_column_consumes_no_budget_witness :
    generate_dynamic_filters
      ⟨["Small"], [[Value.str "s"]],
       ⟨some [("categorical", ["Big", "Small"]), ("datetime", []), ("numeric", [])], uvW8⟩⟩
      none 1 defaultUI =
    generate_dynamic_filters
      ⟨["Small"], [[Value.str "s"]],
       ⟨some [("categorical", ["Small"]), ("datetime", []), ("numeric", [])], uvW8⟩⟩
      none 1 defaultUI := by
  exact skipped_column_consumes_no_budget ["Small"] [[Value.str "s"]] [] ["Small"]
    [] [] "Big" uvW8 ((List.range 101).map (fun i => Value.str ("x" ++ toString i)))
    none 1 defaultUI (by rfl) (by decide)

/-! ## End-to-end scenario -/

/-- The spec's end-to-end dataset: `Supplier` 20 distinct of 200, `Category`
5 distinct of 200, `Amount` numeric with a monetary name, `Date` ISO date
strings with two distinct values. -/
def rawC2 : DataFrame :=
  ⟨["Supplier", "Category", "Amount", "Date"],
   (List.range 200).map (fun i =>
     [Value.str ("S" ++ toString (i % 20)), Value.str ("C" ++ toString (i % 5)),
      Value.num (100 + i),
      Value.str (if i % 2 == 0 then "2022-01-01" else "2023-12-31")]),
   ⟨none, []⟩⟩

def dsC2 : DataFrame := detect_column_types rawC2

/-- C2 counterexample: running the classifier and then the synthesizer with
`max_filters = 3` on the end-to-end dataset produces only 2 specs, not the
claimed 3 (enum Category, enum Supplier, range Date). -/
theorem end_to_end_scenario_counterexample :
    (generate_dynamic_filters dsC2 none 3 defaultUI).map (fun r => r.2.length) =
      some 2 := by
  rfl

/-- C2 amended: the run produces, in order, an enum-choice spec for `Supplier`
then one for `Category` (dataset column order), and no spec for `Date` or
`Amount`: the classifier records the date column under the schema kind `date`
and the monetary column under `monetary`, while the synthesizer reads the
kinds `datetime` and `numeric`, which are empty here. -/
theorem end_to_end_scenario_amended :
    (generate_dynamic_filters dsC2 none 3 defaultUI).map
      (fun r => r.2.map FilterSpec.colName) = some ["Supplier", "Category"] ∧
    (generate_dynamic_filters dsC2 none 3 defaultUI).map
      (fun r => r.2.all FilterSpec.isEnum) = some true ∧
    (dsC2.attrs.column_types.map (fun ct =>
      (ctGet ct "categorical", ctGet ct "date", ctGet ct "monetary",
       ctGet ct "datetime", ctGet ct "numeric"))) =
      some (["Supplier", "Category"], ["Date"], ["Amount"], [], []) := by
  exact ⟨rfl, rfl, rfl⟩

end ArcadisFilters
